import Mathlib

/-!
Verification of the request-routing and dispatch engine of `src/service.rs`
(mbtileserver-rs).  The definitions below are a shallow embedding of that
file: the regex `TILE_URL_RE` and its capture semantics, the response
builders `not_found` / `no_content` / `bad_request` / `tile_map`, and the
handler `get_service` with its tile dispatch, listing, description and
override-overlay logic.  External collaborators (the tile store, the gzip
encoder, serde serialization, the blank image) are passed in as a `Store`
record of oracle functions, exactly as the spec declares them out of scope.
Rust panics (every `.unwrap()` in the source) are modelled as the `none`
result of `get_service`; a produced response is `some r`.
-/

/-- A JSON value, used for the metadata documents the handler assembles
(`serde_json::Value` in the source). -/
inductive JVal where
  | str (s : String)
  | num (n : Int)
  | boolean (b : Bool)
  | null
  | arr (elems : List JVal)
  | obj (fields : List (String × JVal))

/-- A response body: either raw bytes (modelled as a `String`) or a JSON
document (the source serializes the document with `serde_json::to_string`;
we keep the document itself, since every claim speaks about the document or
about byte bodies, never about serialization details). -/
inductive BodyVal where
  | bytes (b : String)
  | jsonBody (v : JVal)

/-- An HTTP response as built by `Response::builder()` in the source:
status code, the headers added in order, and the body. -/
structure Resp where
  status : Nat
  headers : List (String × String)
  body : BodyVal

/-- The `content-type` header name (`hyper::header::CONTENT_TYPE`). -/
def CONTENT_TYPE : String := "content-type"

/-- The `content-encoding` header name (`hyper::header::CONTENT_ENCODING`). -/
def CONTENT_ENCODING : String := "content-encoding"

/-- Modelled from the spec: `TileMeta` lives in `src/tiles.rs`, which is not
part of the provided sources.  Per spec section 3 it carries identity fields,
serving descriptors (`tile_format` as the canonical format extension,
optional `grid_format`), geographic and descriptive fields, and an optional
opaque JSON override object.  Descriptive and geographic fields are kept as
opaque `JVal` values since the handler only embeds them verbatim. -/
structure TileMeta where
  name : String
  version : String
  tilejson : String
  scheme : String
  id : String
  tile_format : String
  grid_format : Option String
  bounds : JVal
  center : JVal
  minzoom : JVal
  maxzoom : JVal
  description : JVal
  attribution : JVal
  layer_type : JVal
  legend : JVal
  template : JVal
  json : Option (List (String × JVal))

/-- Modelled from the spec: the external collaborators consumed by the core
(spec section 6): the store fetchers `get_tile_data` / `get_grid_data` of
`src/tiles.rs`, the serializer `serde_json::to_vec`, the gzip `encode` and
the blank image provider `get_blank_image` of `src/utils.rs`, none of which
are in the provided sources.  `none` from a fetcher models its `Err`
("tile absent") outcome; connection-pool acquisition is folded into the
fetcher. -/
structure Store where
  get_tile_data : Nat → Nat → Nat → Option String
  get_grid_data : String → Nat → Nat → Nat → Option JVal
  json_to_vec : JVal → String
  encode : String → String
  get_blank_image : String

/-- Modelled from the spec: `DataFormat::content_type` of `src/utils.rs`
(not in the provided sources): the canonical MIME type derived from a
format extension (spec section 6: "Content-Type always set to the format's
canonical MIME type").  `DataFormat::JSON.content_type()` and
`DataFormat::PBF.content_type()` in the source are
`data_format_content_type "json"` and `data_format_content_type "pbf"`. -/
def data_format_content_type : String → String
  | "png" => "image/png"
  | "jpg" => "image/jpeg"
  | "jpeg" => "image/jpeg"
  | "webp" => "image/webp"
  | "gif" => "image/gif"
  | "json" => "application/json"
  | "pbf" => "application/x-protobuf"
  | _ => "application/octet-stream"

/-- `fn not_found()` of `service.rs`: status 404 with the static body
`b"Not Found"`. -/
def not_found : Resp :=
  { status := 404, headers := [], body := .bytes "Not Found" }

/-- `fn no_content()` of `service.rs`: status 204 with the static empty
body `b""`. -/
def no_content : Resp :=
  { status := 204, headers := [], body := .bytes "" }

/-- `fn bad_request(msg)` of `service.rs`: status 400 with the message as
body. -/
def bad_request (msg : String) : Resp :=
  { status := 400, headers := [], body := .bytes msg }

/-- Modelled from the spec: the bundled stylesheet
`templates/static/dist/core.min.css`, a file outside the provided sources.
Its exact content is irrelevant to every claim. -/
def core_min_css : String := "css-bundle"

/-- Modelled from the spec: the bundled script
`templates/static/dist/core.min.js`, a file outside the provided sources. -/
def core_min_js : String := "js-bundle"

/-- Modelled from the spec: `templates/map.html`, a file outside the
provided sources; it embeds the stylesheet and script via the placeholder
tokens that `tile_map` substitutes. -/
def map_html : String := "<html>\x7b\x7bcss\x7d\x7d\x7b\x7bjs\x7d\x7d</html>"

/-- `fn tile_map()` of `service.rs`: the static preview page with the
placeholders substituted; `Response::new` gives status 200 and no explicit
headers. -/
def tile_map : Resp :=
  { status := 200, headers := [],
    body := .bytes ((map_html.replace "\x7b\x7bcss\x7d\x7d" core_min_css).replace
      "\x7b\x7bjs\x7d\x7d" core_min_js) }

/-- Strip a literal character sequence from the front of a list, returning
the remainder on success. -/
def stripLit : List Char → List Char → Option (List Char)
  | [], l => some l
  | _ :: _, [] => none
  | p :: ps, c :: cs => if c = p then stripLit ps cs else none

/-- The literal `/services/` that anchors `TILE_URL_RE`. -/
def servicesLit : List Char := "/services/".toList

/-- The literal `/tiles/` inside `TILE_URL_RE`. -/
def tilesLit : List Char := "/tiles/".toList

/-- All decompositions `l = pre ++ suf`, in order of increasing prefix
length. -/
def splits : List Char → List (List Char × List Char)
  | [] => [([], [])]
  | c :: cs => ([], c :: cs) :: (splits cs).map (fun pr => (c :: pr.1, pr.2))

/-- One `\d+` (or the analogous one-or-more) group followed by a mandatory
separator character: succeeds on `tk ++ sep :: r` with `tk` a nonempty run
of characters satisfying `p`, returning `(tk, r)`.  Because the separator
never satisfies `p`, the greedy backtracking semantics of the regex engine
coincide with this maximal-munch reading. -/
def munch (p : Char → Bool) (sep : Char) (l : List Char) : Option (List Char × List Char) :=
  match l.dropWhile p with
  | c :: r => if c = sep ∧ l.takeWhile p ≠ [] then some (l.takeWhile p, r) else none
  | [] => none

/-- The part of `TILE_URL_RE` after the `tile_path` group:
`/tiles/(?P<z>\d+)/(?P<x>\d+)/(?P<y>\d+)\.(?P<format>[a-zA-Z]+)/?(\?(?P<query>.*))?`.
The trailing `/?` and query group are entirely optional and the pattern is
not end-anchored, so any trailing content is accepted; the unused `query`
capture is not retained.  `\d` is modelled as an ASCII digit and
`[a-zA-Z]` as `Char.isAlpha`. -/
def tailParse (l : List Char) : Option (List Char × List Char × List Char × List Char) :=
  match stripLit tilesLit l with
  | none => none
  | some r1 =>
    match munch Char.isDigit '/' r1 with
    | none => none
    | some (z, r2) =>
      match munch Char.isDigit '/' r2 with
      | none => none
      | some (x, r3) =>
        match munch Char.isDigit '.' r3 with
        | none => none
        | some (y, r4) =>
          let fmt := r4.takeWhile Char.isAlpha
          if fmt = [] then none else some (z, x, y, fmt)

/-- Whether a candidate `tile_path` capture is admissible for `.*`: the
dot does not match a newline. -/
def noNL (l : List Char) : Bool := l.all (fun c => !(c == '\n'))

/-- Whether a `(tile_path, rest)` decomposition yields an overall regex
match. -/
def tileSplitOk (pr : List Char × List Char) : Bool :=
  noNL pr.1 && (tailParse pr.2).isSome

/-- The last admissible decomposition in the list: since `splits` orders
prefixes by increasing length, this realizes the greedy (longest-first,
leftmost-first) capture of `.*` in `TILE_URL_RE`. -/
def findLastValid : List (List Char × List Char) → Option (List Char × List Char)
  | [] => none
  | pr :: rest =>
    match findLastValid rest with
    | some r => some r
    | none => if tileSplitOk pr then some pr else none

/-- The named captures of `TILE_URL_RE` used by `get_service`. -/
structure TileCaps where
  tile_path : String
  z : String
  x : String
  y : String
  format : String

/-- `TILE_URL_RE.captures(path)`: the anchored match of
`^/services/(?P<tile_path>.*)/tiles/(?P<z>\d+)/(?P<x>\d+)/(?P<y>\d+)\.(?P<format>[a-zA-Z]+)/?(\?(?P<query>.*))?`
with greedy capture semantics. -/
def tileUrlCaptures (path : String) : Option TileCaps :=
  match stripLit servicesLit path.toList with
  | none => none
  | some rest =>
    match findLastValid (splits rest) with
    | none => none
    | some pr =>
      match tailParse pr.2 with
      | none => none
      | some (z, x, y, fmt) => some ⟨⟨pr.1⟩, ⟨z⟩, ⟨x⟩, ⟨y⟩, ⟨fmt⟩⟩

/-- `str::parse::<u32>()` as applied to a regex `\d+` capture: a nonempty
all-digit string parses to its value when that value fits in 32 bits, and
fails (the source then panics on `.unwrap()`) when it exceeds `u32::MAX`. -/
def parse_u32 (s : String) : Option Nat :=
  if s.toList = [] then none
  else if s.toList.all Char.isDigit then
    let v := s.toList.foldl (fun a c => a * 10 + (c.toNat - 48)) 0
    if v < 2 ^ 32 then some v else none
  else none

/-- Wrap-around 32-bit subtraction on naturals. -/
def sub32 (a b : Nat) : Nat := (a % 2 ^ 32 + 2 ^ 32 - b % 2 ^ 32) % 2 ^ 32

/-- Line 81 of `service.rs`: `let y: u32 = (1 << z) - 1 - y;`, computed in
32-bit unsigned arithmetic. -/
def flip32 (z y : Nat) : Nat := sub32 (sub32 ((1 <<< z) % 2 ^ 32) 1) y

/-- `path.trim_matches('/')`: strip leading and trailing slashes. -/
def trimSlashes (s : String) : String :=
  ⟨((s.toList.dropWhile (fun c => c = '/')).reverse.dropWhile (fun c => c = '/')).reverse⟩

/-- `str::starts_with`: whether the string begins with the given literal
(used for the `path.starts_with("/services")` test). -/
def startsWithLit (pre : List Char) (s : String) : Bool :=
  (stripLit pre s.toList).isSome

/-- `str::split('/')` collected into a vector: splits at every slash and
keeps empty segments, as Rust does (`"".split('/')` gives `[""]`). -/
def splitSlashAux : List Char → List Char → List String
  | [], acc => [⟨acc.reverse⟩]
  | c :: cs, acc =>
    if c = '/' then ⟨acc.reverse⟩ :: splitSlashAux cs [] else splitSlashAux cs (c :: acc)

/-- `path.trim_matches('/').split('/').collect()` of `service.rs` line 136. -/
def splitSlash (l : List Char) : List String := splitSlashAux l []

/-- First-match association-list lookup, the key order of a JSON object. -/
def lookupKey : List (String × JVal) → String → Option JVal
  | [], _ => none
  | (k', v) :: rest, k => if k' = k then some v else lookupKey rest k

/-- `tile_meta_json[k] = v` on a `serde_json` object: replace the value of
an existing key in place, or append a new key. -/
def setKey : List (String × JVal) → String → JVal → List (String × JVal)
  | [], k, v => [(k, v)]
  | (k', v') :: rest, k, v =>
    if k' = k then (k, v) :: rest else (k', v') :: setKey rest k v

/-- Lines 206 to 213 of `service.rs`: overlay every key of the override object
onto the computed document, in order. -/
def apply_overrides (doc : List (String × JVal)) (ov : List (String × JVal)) :
    List (String × JVal) :=
  ov.foldl (fun d kv => setKey d kv.1 kv.2) doc

/-- `HashMap::get` on the registry, modelled as association-list lookup
(registry keys are unique). -/
def registryGet : List (String × TileMeta) → String → Option TileMeta
  | [], _ => none
  | (k, v) :: rest, id => if k = id then some v else registryGet rest id

/-- Lines 174 to 205 of `service.rs`: the computed description document built
by the `json!` literal.  `tile_meta.tile_format.format()` is the format
extension itself under our `TileMeta` modelling, and an absent
`grid_format` serializes the `grids` field as JSON `null`. -/
def tile_meta_json (tile_meta : TileMeta) (base_url tile_name query_string : String) :
    List (String × JVal) :=
  [ ("name", .str tile_meta.name),
    ("version", .str tile_meta.version),
    ("map", .str (base_url ++ "/" ++ tile_name ++ "/" ++ "map")),
    ("tiles", .arr [.str (base_url ++ "/" ++ tile_name ++ "/tiles/\x7bz\x7d/\x7bx\x7d/\x7by\x7d."
        ++ tile_meta.tile_format ++ query_string)]),
    ("tilejson", .str tile_meta.tilejson),
    ("scheme", .str tile_meta.scheme),
    ("id", .str tile_meta.id),
    ("format", .str tile_meta.tile_format),
    ("grids", match tile_meta.grid_format with
      | some _ => .arr [.str (base_url ++ "/" ++ tile_name
          ++ "/tiles/\x7bz\x7d/\x7bx\x7d/\x7by\x7d.json" ++ query_string)]
      | none => .null),
    ("bounds", tile_meta.bounds),
    ("center", tile_meta.center),
    ("minzoom", tile_meta.minzoom),
    ("maxzoom", tile_meta.maxzoom),
    ("description", tile_meta.description),
    ("attribution", tile_meta.attribution),
    ("type", tile_meta.layer_type),
    ("legend", tile_meta.legend),
    ("template", tile_meta.template) ]

/-- Lines 174 to 213 of `service.rs`: the assembled description document:
computed fields first, then every key of the optional opaque override
object applied after. -/
def description_document (tile_meta : TileMeta) (base_url tile_name query_string : String) :
    List (String × JVal) :=
  match tile_meta.json with
  | some ov => apply_overrides (tile_meta_json tile_meta base_url tile_name query_string) ov
  | none => tile_meta_json tile_meta base_url tile_name query_string

/-- Lines 89 to 132 of `service.rs`: the per-format dispatch on a tile request,
after the coordinate flip.  `y` here is already the store row. -/
def tile_response (tile_meta : TileMeta) (store : Store) (z x y : Nat)
    (data_format : String) : Resp :=
  if data_format = "json" then
    match tile_meta.grid_format with
    | some grid_format =>
      match store.get_grid_data grid_format z x y with
      | some data =>
        { status := 200,
          headers := [(CONTENT_TYPE, data_format_content_type "json"),
                      (CONTENT_ENCODING, "gzip")],
          body := .bytes (store.encode (store.json_to_vec data)) }
      | none => no_content
    | none => not_found
  else if data_format = "pbf" then
    match store.get_tile_data z x y with
    | some data =>
      { status := 200,
        headers := [(CONTENT_TYPE, data_format_content_type "pbf"),
                    (CONTENT_ENCODING, "gzip")],
        body := .bytes data }
    | none => no_content
  else
    let data := match store.get_tile_data z x y with
      | some data => data
      | none => store.get_blank_image
    { status := 200,
      headers := [(CONTENT_TYPE, data_format_content_type data_format)],
      body := .bytes data }

/-- Lines 134 to 220 of `service.rs`: the `/services`-prefixed non-tile
branch: listing, map preview, and tileset description with override
overlay or `bad_request` for an unknown id. -/
def services_response (base_url path : String) (query : Option String)
    (tilesets : List (String × TileMeta)) : Resp :=
  let segments := splitSlash (trimSlashes path).toList
  if segments.length = 1 then
    { status := 200, headers := [(CONTENT_TYPE, "application/json")],
      body := .jsonBody (.arr (tilesets.map (fun p =>
        .obj [("image_type", .str p.2.tile_format),
              ("url", .str (base_url ++ "/" ++ p.1))]))) }
  else if segments.getLastD "" = "map" then
    tile_map
  else
    let tile_name := String.intercalate "/" (segments.drop 1)
    match registryGet tilesets tile_name with
    | none => bad_request ("Tileset does not exist: " ++ tile_name)
    | some tile_meta =>
      let query_string := match query with
        | some q => "?" ++ q
        | none => ""
      { status := 200, headers := [(CONTENT_TYPE, "application/json")],
        body := .jsonBody (.obj (description_document tile_meta base_url tile_name query_string)) }

/-- `pub async fn get_service` of `service.rs`.  Arguments mirror what the
handler reads from the request: the URI scheme, the `host` header (`none`
models an absent header or one whose value is not a valid string — the
source indexes `request.headers()["host"]` and calls `.to_str().unwrap()`),
the URI path, the URI query, the registry and the external collaborators.
A `none` result models a panic escaping the handler; `some r` is the
response the handler returns. -/
def get_service (scheme_str : Option String) (host : Option String) (path : String)
    (query : Option String) (tilesets : List (String × TileMeta)) (store : Store) :
    Option Resp :=
  let scheme := match scheme_str with
    | some s => s ++ "://"
    | none => "http://"
  match host with
  | none => none
  | some host =>
    let base_url := scheme ++ host ++ "/services"
    match tileUrlCaptures path with
    | some caps =>
      match registryGet tilesets caps.tile_path with
      | none => none
      | some tile_meta =>
        match parse_u32 caps.z, parse_u32 caps.x, parse_u32 caps.y with
        | some z, some x, some y => some (tile_response tile_meta store z x (flip32 z y) caps.format)
        | _, _, _ => none
    | none =>
      if startsWithLit "/services".toList path then
        some (services_response base_url path query tilesets)
      else
        some not_found

/-- Whether the content after the format token is one the spec's grammar
`[/][?<query>]` allows: nothing, a lone slash, a query, or a slash then a
query. -/
def okTrail : List Char → Bool
  | [] => true
  | ['/'] => true
  | '?' :: _ => true
  | '/' :: '?' :: _ => true
  | _ => false

/-- The spec-side reading of the tail of the grammar: `/tiles/` then three
nonempty decimal integers, a dot, a nonempty alphabetic format token, and
then only the optional trailing slash and query.  Since the characters
following each token group cannot extend the group, maximal munch decides
the existence of a decomposition. -/
def specTailOk (l : List Char) : Bool :=
  match stripLit tilesLit l with
  | none => false
  | some r1 =>
    match munch Char.isDigit '/' r1 with
    | none => false
    | some (_, r2) =>
      match munch Char.isDigit '/' r2 with
      | none => false
      | some (_, r3) =>
        match munch Char.isDigit '.' r3 with
        | none => false
        | some (_, r4) =>
          !(r4.takeWhile Char.isAlpha).isEmpty && okTrail (r4.dropWhile Char.isAlpha)

/-- The grammar exactly as the spec words it (claim C8):
`/services/<tileset_id>/tiles/<z>/<x>/<y>.<format>[/][?<query>]` with
`<tileset_id>` a NON-EMPTY path segment sequence and nothing after the
format token but the optional slash and query.  This is the claim-side
definition, to be compared with `tileUrlCaptures`. -/
def specTileGrammar (path : String) : Bool :=
  match stripLit servicesLit path.toList with
  | none => false
  | some rest => (splits rest).any (fun pr => !pr.1.isEmpty && specTailOk pr.2)

/-- A concrete metadata fixture without grid capability. -/
def meta0 : TileMeta :=
  { name := "geo", version := "1", tilejson := "2.1.0", scheme := "xyz", id := "a",
    tile_format := "png", grid_format := none,
    bounds := .null, center := .null, minzoom := .num 0, maxzoom := .num 1,
    description := .str "computed", attribution := .null, layer_type := .null,
    legend := .null, template := .null, json := none }

/-- A concrete metadata fixture with grid capability. -/
def meta_grid : TileMeta := { meta0 with grid_format := some "utfgrid" }

/-- A concrete metadata fixture carrying an opaque override object. -/
def meta_ov : TileMeta :=
  { meta0 with json := some [("description", .str "custom"), ("added", .str "extra")] }

/-- A concrete store fixture in which every fetch reports absence. -/
def store0 : Store :=
  { get_tile_data := fun _ _ _ => none,
    get_grid_data := fun _ _ _ _ => none,
    json_to_vec := fun _ => "",
    encode := fun s => s,
    get_blank_image := "blank-image-bytes" }

/-! ## Helper lemmas -/

/-- For zoom levels up to 30 and an in-range row, the 32-bit computation of
line 81 neither overflows nor wraps: it equals the exact value
`2 ^ z - 1 - y`. -/
theorem flip32_eq (z y : Nat) (hz : z ≤ 30) (hy : y < 2 ^ z) :
    flip32 z y = 2 ^ z - 1 - y := by
  have hp : 2 ^ z < 2 ^ 32 := by
    calc 2 ^ z ≤ 2 ^ 30 := Nat.pow_le_pow_right (by norm_num) hz
    _ < 2 ^ 32 := by norm_num
  have h1 : 0 < 2 ^ z := pow_pos (by norm_num) z
  unfold flip32 sub32
  rw [Nat.shiftLeft_eq, one_mul]
  rw [show (2 : Nat) ^ 32 = 4294967296 from by norm_num] at hp ⊢
  generalize hq : (2 : Nat) ^ z = p at hp h1 hy ⊢
  omega

/-! ## Claim C9 -/

/-- C9: for all z in [0, 20] and y in [0, 2^z - 1], the coordinate flip of
line 81 of `service.rs` is an involution: `flip32 z (flip32 z y) = y`. -/
theorem flip32_involution (z y : Nat) (hz : z ≤ 20) (hy : y < 2 ^ z) :
    flip32 z (flip32 z y) = y := by
  have hz30 : z ≤ 30 := by omega
  have h1 : 0 < 2 ^ z := pow_pos (by norm_num) z
  rw [flip32_eq z y hz30 hy, flip32_eq z (2 ^ z - 1 - y) hz30 (by omega)]
  omega

/-- Witness for C9 at z = 3, y = 5. -/
theorem flip32_involution_witness :
    (3 ≤ 20 ∧ 5 < 2 ^ 3) ∧ flip32 3 (flip32 3 5) = 5 :=
  ⟨⟨by decide, by decide⟩, flip32_involution 3 5 (by decide) (by decide)⟩

/-! ## Claim C10 -/

/-- C10: `get_service` reads the request's host header to build the base
URL before any routing decision, so a request with no (or an invalid) host
header makes the handler panic — modelled as the `none` outcome — for every
path, query, scheme, registry and store, even those that would otherwise
route to a 404 or a tile. -/
theorem get_service_requires_host_header (scheme_str : Option String) (path : String)
    (query : Option String) (tilesets : List (String × TileMeta)) (store : Store) :
    get_service scheme_str none path query tilesets store = none := rfl

/-! ## Claim C1 (code bug) -/

/-- C1 failing input: the path matches the tile grammar but the tileset id
`nope` is absent from the (empty) registry; `get_service` evaluates to
`none`, i.e. the source panics at `tilesets.get(tile_path).unwrap()`
instead of producing the well-formed response the claim requires. -/
theorem get_service_panics_on_unknown_tileset :
    (tileUrlCaptures "/services/nope/tiles/0/0/0.png").isSome = true ∧
    get_service none (some "localhost") "/services/nope/tiles/0/0/0.png" none [] store0 =
      none :=
  ⟨rfl, rfl⟩

/-! ## Claim C5 (code bug) -/

/-- C5 failing input: the digit sequence `4294967296` (= 2^32) exceeds
`u32::MAX`, so `parse::<u32>()` fails and the source panics at `.unwrap()`;
`get_service` evaluates to `none` instead of the well-formed RouteNotFound
response the claim requires.  The tileset is present in the registry, so
the panic is reached. -/
theorem get_service_panics_on_u32_overflow :
    parse_u32 "4294967296" = none ∧
    get_service none (some "localhost") "/services/a/tiles/4294967296/0/0.png" none
      [("a", meta0)] store0 = none :=
  ⟨rfl, rfl⟩

/-! ## Claim C3 -/

/-- C3: the three format branches of the dispatcher apply exactly the
specified failure asymmetry.  With grid capability present, a failed grid
fetch for format `json` yields `no_content`; a failed tile fetch for
format `pbf` yields `no_content`; for any other (raster) format a failed
tile fetch yields status 200 with the blank-tile bytes and the MIME type
derived from the requested extension; and `no_content` is status 204 with
an empty body. -/
theorem tile_response_failure_asymmetry (tile_meta : TileMeta) (store : Store)
    (z x y : Nat) (grid_format data_format : String)
    (hgrid : tile_meta.grid_format = some grid_format)
    (hg : store.get_grid_data grid_format z x y = none)
    (ht : store.get_tile_data z x y = none)
    (hfmt : data_format ≠ "json" ∧ data_format ≠ "pbf") :
    tile_response tile_meta store z x y "json" = no_content ∧
    tile_response tile_meta store z x y "pbf" = no_content ∧
    tile_response tile_meta store z x y data_format =
      { status := 200, headers := [(CONTENT_TYPE, data_format_content_type data_format)],
        body := .bytes store.get_blank_image } ∧
    no_content.status = 204 ∧ no_content.body = .bytes "" := by
  refine ⟨?_, ?_, ?_, rfl, rfl⟩
  · simp only [tile_response, if_pos rfl, if_true, hgrid, hg]
  · simp only [tile_response, if_neg (by decide : ¬ ("pbf" = "json")), if_pos rfl, if_true, ht]
  · simp only [tile_response, if_neg hfmt.1, if_neg hfmt.2, ht]

/-- Witness for C3 at a grid-capable tileset whose store has no data at
(0, 0, 0), with raster format `png`. -/
theorem tile_response_failure_asymmetry_witness :
    (meta_grid.grid_format = some "utfgrid" ∧
     store0.get_grid_data "utfgrid" 0 0 0 = none ∧
     store0.get_tile_data 0 0 0 = none) ∧
    (tile_response meta_grid store0 0 0 0 "json" = no_content ∧
     tile_response meta_grid store0 0 0 0 "pbf" = no_content ∧
     tile_response meta_grid store0 0 0 0 "png" =
       { status := 200, headers := [(CONTENT_TYPE, data_format_content_type "png")],
         body := .bytes store0.get_blank_image } ∧
     no_content.status = 204 ∧ no_content.body = .bytes "") :=
  ⟨⟨rfl, rfl, rfl⟩,
   tile_response_failure_asymmetry meta_grid store0 0 0 0 "utfgrid" "png"
     rfl rfl rfl (by decide)⟩

/-! ## Claim C4 (corrected) -/

/-- C4 counterexample: a tile request with format `json` against a tileset
with no `grid_format` does get status 404, but the body of `not_found()`
is the static bytes `"Not Found"`, not the empty body the claim states. -/
theorem json_no_grid_body_not_empty :
    get_service none (some "localhost") "/services/a/tiles/0/0/0.json" none
      [("a", meta0)] store0 = some not_found ∧
    not_found.status = 404 ∧ ¬ (not_found.body = BodyVal.bytes "") := by
  refine ⟨rfl, rfl, fun h => ?_⟩
  injection h with h2
  exact absurd h2 (by decide)

/-- C4 amended: for every tile request with format `json` against a
tileset whose metadata has no `grid_format`, the response is
`not_found()`: status 404 with body `"Not Found"` (not empty). -/
theorem json_no_grid_not_found (scheme_str : Option String) (host path : String)
    (query : Option String) (tilesets : List (String × TileMeta)) (store : Store)
    (caps : TileCaps) (tile_meta : TileMeta) (z x y : Nat)
    (hcaps : tileUrlCaptures path = some caps)
    (hmeta : registryGet tilesets caps.tile_path = some tile_meta)
    (hz : parse_u32 caps.z = some z) (hx : parse_u32 caps.x = some x)
    (hy : parse_u32 caps.y = some y)
    (hfmt : caps.format = "json")
    (hgrid : tile_meta.grid_format = none) :
    get_service scheme_str (some host) path query tilesets store = some not_found ∧
    not_found.status = 404 ∧ not_found.body = .bytes "Not Found" := by
  refine ⟨?_, rfl, rfl⟩
  simp only [get_service, hcaps, hmeta, hz, hx, hy]
  simp only [tile_response, hfmt, if_pos rfl, if_true, hgrid]

/-- Witness for the amended C4 at the concrete request
`/services/a/tiles/1/2/3.json` against a grid-less tileset. -/
theorem json_no_grid_not_found_witness :
    (tileUrlCaptures "/services/a/tiles/1/2/3.json" =
       some ⟨"a", "1", "2", "3", "json"⟩ ∧
     registryGet [("a", meta0)] "a" = some meta0 ∧ meta0.grid_format = none) ∧
    get_service none (some "localhost") "/services/a/tiles/1/2/3.json" none
      [("a", meta0)] store0 = some not_found :=
  ⟨⟨rfl, rfl, rfl⟩,
   (json_no_grid_not_found none "localhost" "/services/a/tiles/1/2/3.json" none
     [("a", meta0)] store0 ⟨"a", "1", "2", "3", "json"⟩ meta0 1 2 3
     rfl rfl rfl rfl rfl rfl rfl).1⟩

/-! ## Claim C2 -/

/-- C2: for a tile request with zoom z in [0, 30] and requested row y in
[0, 2^z - 1], the handler computes the store row as `2 ^ z - 1 - y` in
32-bit unsigned arithmetic without overflow (`flip32 z y` equals the exact
value), and applies the transform exactly once, immediately after parsing
and before any store access: the response is `tile_response` applied to
the flipped row, and `tile_response` passes its row argument to the store
fetchers unchanged. -/
theorem get_service_flips_y_once (scheme_str : Option String) (host path : String)
    (query : Option String) (tilesets : List (String × TileMeta)) (store : Store)
    (caps : TileCaps) (tile_meta : TileMeta) (z x y : Nat)
    (hcaps : tileUrlCaptures path = some caps)
    (hmeta : registryGet tilesets caps.tile_path = some tile_meta)
    (hz : parse_u32 caps.z = some z) (hx : parse_u32 caps.x = some x)
    (hy : parse_u32 caps.y = some y)
    (hz30 : z ≤ 30) (hyb : y < 2 ^ z) :
    flip32 z y = 2 ^ z - 1 - y ∧
    get_service scheme_str (some host) path query tilesets store =
      some (tile_response tile_meta store z x (2 ^ z - 1 - y) caps.format) := by
  refine ⟨flip32_eq z y hz30 hyb, ?_⟩
  simp only [get_service, hcaps, hmeta, hz, hx, hy, flip32_eq z y hz30 hyb]

/-- Witness for C2 at the concrete request `/services/a/tiles/3/2/5.png`:
z = 3, requested row 5, store row 2. -/
theorem get_service_flips_y_once_witness :
    (tileUrlCaptures "/services/a/tiles/3/2/5.png" = some ⟨"a", "3", "2", "5", "png"⟩ ∧
     registryGet [("a", meta0)] "a" = some meta0 ∧ (3 : Nat) ≤ 30 ∧ (5 : Nat) < 2 ^ 3) ∧
    flip32 3 5 = 2 ∧
    get_service none (some "localhost") "/services/a/tiles/3/2/5.png" none
      [("a", meta0)] store0 = some (tile_response meta0 store0 3 2 (2 ^ 3 - 1 - 5) "png") :=
  ⟨⟨rfl, rfl, by decide, by decide⟩,
   (get_service_flips_y_once none "localhost" "/services/a/tiles/3/2/5.png" none
     [("a", meta0)] store0 ⟨"a", "3", "2", "5", "png"⟩ meta0 3 2 5
     rfl rfl rfl rfl rfl (by decide) (by decide)).1,
   (get_service_flips_y_once none "localhost" "/services/a/tiles/3/2/5.png" none
     [("a", meta0)] store0 ⟨"a", "3", "2", "5", "png"⟩ meta0 3 2 5
     rfl rfl rfl rfl rfl (by decide) (by decide)).2⟩

/-! ## Claim C6 -/

/-- C6: a description request (a `/services`-prefixed path that does not
match the tile grammar, has more than one segment, and does not end in
`map`) whose tileset id is absent from the registry gets status 400, and
the body is a human-readable message containing the missing id. -/
theorem unknown_tileset_description_bad_request (scheme_str : Option String)
    (host path : String) (query : Option String)
    (tilesets : List (String × TileMeta)) (store : Store)
    (hcaps : tileUrlCaptures path = none)
    (hpre : startsWithLit "/services".toList path = true)
    (hlen : (splitSlash (trimSlashes path).toList).length ≠ 1)
    (hmap : (splitSlash (trimSlashes path).toList).getLastD "" ≠ "map")
    (habs : registryGet tilesets
      (String.intercalate "/" ((splitSlash (trimSlashes path).toList).drop 1)) = none) :
    get_service scheme_str (some host) path query tilesets store =
      some (bad_request ("Tileset does not exist: " ++
        String.intercalate "/" ((splitSlash (trimSlashes path).toList).drop 1))) ∧
    (bad_request ("Tileset does not exist: " ++
       String.intercalate "/" ((splitSlash (trimSlashes path).toList).drop 1))).status = 400 ∧
    ∃ a b : String,
      "Tileset does not exist: " ++
          String.intercalate "/" ((splitSlash (trimSlashes path).toList).drop 1) =
        a ++ String.intercalate "/" ((splitSlash (trimSlashes path).toList).drop 1) ++ b := by
  refine ⟨?_, rfl, "Tileset does not exist: ", "", ?_⟩
  · simp only [get_service, hcaps, hpre, if_true, services_response,
      if_neg hlen, if_neg hmap, habs]
  · cases hs : ("Tileset does not exist: " ++
      String.intercalate "/" ((splitSlash (trimSlashes path).toList).drop 1)) with
    | mk d => simp [String.append]

/-! ## Claim C7 -/

/-- Setting a key then looking it up yields the value just set. -/
theorem lookupKey_setKey_self (d : List (String × JVal)) (k : String) (v : JVal) :
    lookupKey (setKey d k v) k = some v := by
  induction d with
  | nil => simp [setKey, lookupKey]
  | cons hd tl ih =>
    obtain ⟨k', v'⟩ := hd
    by_cases h : k' = k
    · simp [setKey, h, lookupKey]
    · simp [setKey, h, lookupKey, ih]

/-- Setting one key leaves lookups of any other key unchanged. -/
theorem lookupKey_setKey_other (d : List (String × JVal)) (k k' : String) (v : JVal)
    (h : k' ≠ k) : lookupKey (setKey d k v) k' = lookupKey d k' := by
  induction d with
  | nil =>
    simp only [setKey, lookupKey]
    rw [if_neg (fun hh : k = k' => h hh.symm)]
  | cons hd tl ih =>
    obtain ⟨k0, v0⟩ := hd
    by_cases h0 : k0 = k
    · subst h0
      simp only [setKey, if_pos rfl, lookupKey]
      rw [if_neg (fun hh : k0 = k' => h hh.symm), if_neg (fun hh : k0 = k' => h hh.symm)]
    · simp only [setKey, if_neg h0, lookupKey]
      by_cases h1 : k0 = k'
      · simp [h1]
      · simp [h1, ih]

/-- A key absent from an association list looks up to `none`. -/
theorem lookupKey_eq_none_of_not_mem (l : List (String × JVal)) (k : String)
    (h : k ∉ l.map Prod.fst) : lookupKey l k = none := by
  induction l with
  | nil => rfl
  | cons hd tl ih =>
    obtain ⟨k', v'⟩ := hd
    simp only [List.map_cons, List.mem_cons] at h
    push_neg at h
    simp only [lookupKey, if_neg (fun hh : k' = k => h.1 hh.symm), ih h.2]

/-- Looking up a key in a document after an override overlay: a key of the
override maps to the override's value; any other key keeps the underlying
document's value.  Requires the override's keys to be distinct, as they
are in a JSON object. -/
theorem lookupKey_apply_overrides (ov d : List (String × JVal)) (k : String)
    (hnodup : (ov.map Prod.fst).Nodup) :
    lookupKey (apply_overrides d ov) k =
      match lookupKey ov k with
      | some v => some v
      | none => lookupKey d k := by
  induction ov generalizing d with
  | nil => simp [apply_overrides, lookupKey]
  | cons hd tl ih =>
    obtain ⟨k0, v0⟩ := hd
    simp only [List.map_cons, List.nodup_cons] at hnodup
    have step : apply_overrides d ((k0, v0) :: tl) = apply_overrides (setKey d k0 v0) tl := by
      simp [apply_overrides]
    rw [step, ih (setKey d k0 v0) hnodup.2]
    by_cases hk : k0 = k
    · subst hk
      have htl : lookupKey tl k0 = none :=
        lookupKey_eq_none_of_not_mem tl k0 hnodup.1
      simp [lookupKey, htl, lookupKey_setKey_self]
    · simp [lookupKey, hk, lookupKey_setKey_other d k0 k v0 (fun hh => hk hh.symm)]

/-- C7: for a tileset whose metadata carries an opaque JSON override
object (with distinct keys), the assembled description document equals the
computed document with every override key applied afterwards: a key
present in the override maps to the override's value (present in both →
override wins; present only in the override → added verbatim), and a key
absent from the override keeps its computed value. -/
theorem description_overrides_win (tile_meta : TileMeta)
    (base_url tile_name query_string : String) (ov : List (String × JVal))
    (hjson : tile_meta.json = some ov)
    (hnodup : (ov.map Prod.fst).Nodup) :
    ∀ k : String,
      (∀ v, lookupKey ov k = some v →
        lookupKey (description_document tile_meta base_url tile_name query_string) k =
          some v) ∧
      (lookupKey ov k = none →
        lookupKey (description_document tile_meta base_url tile_name query_string) k =
          lookupKey (tile_meta_json tile_meta base_url tile_name query_string) k) := by
  intro k
  have base := lookupKey_apply_overrides ov
    (tile_meta_json tile_meta base_url tile_name query_string) k hnodup
  constructor
  · intro v hv
    simp only [description_document, hjson]
    rw [base, hv]
  · intro hv
    simp only [description_document, hjson]
    rw [base, hv]

/-- Witness for C7: the fixture override `{"description": "custom",
"added": "extra"}` wins over the computed `description` field and is added
verbatim for the fresh key, while an untouched computed key (`name`)
keeps its computed value. -/
theorem description_overrides_win_witness :
    (meta_ov.json = some [("description", .str "custom"), ("added", .str "extra")]) ∧
    lookupKey (description_document meta_ov "http://h/services" "a" "") "description" =
      some (.str "custom") ∧
    lookupKey (description_document meta_ov "http://h/services" "a" "") "added" =
      some (.str "extra") ∧
    lookupKey (description_document meta_ov "http://h/services" "a" "") "name" =
      lookupKey (tile_meta_json meta_ov "http://h/services" "a" "") "name" := by
  refine ⟨rfl, ?_, ?_, ?_⟩
  · exact (description_overrides_win meta_ov "http://h/services" "a" ""
      [("description", .str "custom"), ("added", .str "extra")] rfl
      (by decide) "description").1 (.str "custom") rfl
  · exact (description_overrides_win meta_ov "http://h/services" "a" ""
      [("description", .str "custom"), ("added", .str "extra")] rfl
      (by decide) "added").1 (.str "extra") rfl
  · exact (description_overrides_win meta_ov "http://h/services" "a" ""
      [("description", .str "custom"), ("added", .str "extra")] rfl
      (by decide) "name").2 rfl

/-! ## Claim C8: regex capture semantics -/

/-- `stripLit` succeeds exactly on lists with the literal as a prefix. -/
theorem stripLit_some_iff (p l r : List Char) : stripLit p l = some r ↔ l = p ++ r := by
  induction p generalizing l with
  | nil => simp [stripLit]
  | cons c cs ih =>
    cases l with
    | nil => simp [stripLit]
    | cons d ds =>
      simp only [stripLit, List.cons_append, List.cons.injEq]
      by_cases h : d = c
      · subst h
        rw [if_pos rfl, ih]
        simp
      · rw [if_neg h]
        simp [h]

/-- Every member of `splits l` is a decomposition of `l`. -/
theorem splits_sound (l : List Char) (pr : List Char × List Char)
    (h : pr ∈ splits l) : pr.1 ++ pr.2 = l := by
  induction l generalizing pr with
  | nil =>
    simp only [splits, List.mem_singleton] at h
    subst h
    rfl
  | cons c cs ih =>
    simp only [splits, List.mem_cons, List.mem_map] at h
    rcases h with h | ⟨q, hq, hpr⟩
    · subst h
      rfl
    · subst hpr
      simp only [List.cons_append, List.cons.injEq]
      exact ⟨by trivial, ih q hq⟩

/-- Every decomposition of `l` occurs in `splits l`. -/
theorem splits_complete (a b l : List Char) (h : a ++ b = l) : (a, b) ∈ splits l := by
  induction a generalizing l with
  | nil =>
    subst h
    cases b with
    | nil => simp [splits]
    | cons c cs => simp [splits]
  | cons a0 as ih =>
    subst h
    simp only [List.cons_append, splits, List.mem_cons, List.mem_map]
    exact Or.inr ⟨(as, b), ih (as ++ b) rfl, rfl⟩

/-- A run of characters satisfying `p` followed by one that does not:
`takeWhile` keeps exactly the run and `dropWhile` drops exactly it. -/
theorem takeWhile_run (p : Char → Bool) (l1 : List Char) (c : Char) (l2 : List Char)
    (h1 : ∀ a ∈ l1, p a = true) (h2 : p c = false) :
    (l1 ++ c :: l2).takeWhile p = l1 ∧ (l1 ++ c :: l2).dropWhile p = c :: l2 := by
  induction l1 with
  | nil =>
    have h2' : ¬ p c := by simp [h2]
    simp [List.takeWhile_cons_of_neg h2', List.dropWhile_cons_of_neg h2']
  | cons a t ih =>
    have ha : p a = true := h1 a (List.mem_cons_self a t)
    have ht : ∀ b ∈ t, p b = true := fun b hb => h1 b (List.mem_cons_of_mem a hb)
    obtain ⟨ih1, ih2⟩ := ih ht
    simp [List.takeWhile_cons_of_pos ha, List.dropWhile_cons_of_pos ha, ih1, ih2]

/-- `munch` succeeds with exactly the decompositions a backtracking regex
engine accepts for a one-or-more group followed by a separator the group's
class excludes. -/
theorem munch_eq_some_iff (p : Char → Bool) (sep : Char) (l tk r : List Char)
    (hsep : p sep = false) :
    munch p sep l = some (tk, r) ↔
      l = tk ++ sep :: r ∧ tk ≠ [] ∧ ∀ c ∈ tk, p c = true := by
  constructor
  · intro h
    unfold munch at h
    cases hd : l.dropWhile p with
    | nil => rw [hd] at h; exact Option.noConfusion h
    | cons c r0 =>
      rw [hd] at h
      change (if c = sep ∧ l.takeWhile p ≠ [] then some (l.takeWhile p, r0) else none) =
        some (tk, r) at h
      by_cases hc : c = sep ∧ l.takeWhile p ≠ []
      · rw [if_pos hc] at h
        simp only [Option.some.injEq, Prod.mk.injEq] at h
        obtain ⟨htk, hr⟩ := h
        refine ⟨?_, htk ▸ hc.2, fun c' hc' => List.mem_takeWhile_imp (htk ▸ hc')⟩
        rw [← htk, ← hr, ← hc.1, ← hd]
        exact (List.takeWhile_append_dropWhile p l).symm
      · rw [if_neg hc] at h
        exact Option.noConfusion h
  · rintro ⟨hl, htk, hall⟩
    subst hl
    obtain ⟨h1, h2⟩ := takeWhile_run p tk sep r hall hsep
    unfold munch
    simp only [h2, h1]
    simp [htk]

/-- A successful `tailParse` exposes the shape the regex tail demands:
`/tiles/` then three nonempty digit runs, a dot, a nonempty alphabetic
run, and arbitrary trailing content. -/
theorem tailParse_shape (l z x y fmt : List Char)
    (h : tailParse l = some (z, x, y, fmt)) :
    ∃ trail,
      l = tilesLit ++ (z ++ '/' :: (x ++ '/' :: (y ++ '.' :: (fmt ++ trail)))) ∧
      z ≠ [] ∧ (∀ c ∈ z, c.isDigit = true) ∧
      x ≠ [] ∧ (∀ c ∈ x, c.isDigit = true) ∧
      y ≠ [] ∧ (∀ c ∈ y, c.isDigit = true) ∧
      fmt ≠ [] ∧ (∀ c ∈ fmt, c.isAlpha = true) := by
  unfold tailParse at h
  cases hs : stripLit tilesLit l with
  | none => rw [hs] at h; exact Option.noConfusion h
  | some r1 =>
    simp only [hs] at h
    cases hm1 : munch Char.isDigit '/' r1 with
    | none => rw [hm1] at h; exact Option.noConfusion h
    | some zr =>
      obtain ⟨z1, r2⟩ := zr
      simp only [hm1] at h
      cases hm2 : munch Char.isDigit '/' r2 with
      | none => rw [hm2] at h; exact Option.noConfusion h
      | some xr =>
        obtain ⟨x1, r3⟩ := xr
        simp only [hm2] at h
        cases hm3 : munch Char.isDigit '.' r3 with
        | none => rw [hm3] at h; exact Option.noConfusion h
        | some yr =>
          obtain ⟨y1, r4⟩ := yr
          simp only [hm3] at h
          by_cases hf : r4.takeWhile Char.isAlpha = []
          · rw [if_pos hf] at h
            exact Option.noConfusion h
          · rw [if_neg hf] at h
            simp only [Option.some.injEq, Prod.mk.injEq] at h
            obtain ⟨hz1, hx1, hy1, hf1⟩ := h
            rw [hz1] at hm1
            rw [hx1] at hm2
            rw [hy1] at hm3
            obtain ⟨e1, hzne, hzd⟩ :=
              (munch_eq_some_iff Char.isDigit '/' r1 z r2 (by decide)).mp hm1
            obtain ⟨e2, hxne, hxd⟩ :=
              (munch_eq_some_iff Char.isDigit '/' r2 x r3 (by decide)).mp hm2
            obtain ⟨e3, hyne, hyd⟩ :=
              (munch_eq_some_iff Char.isDigit '.' r3 y r4 (by decide)).mp hm3
            refine ⟨r4.dropWhile Char.isAlpha, ?_, hzne, hzd, hxne, hxd, hyne, hyd,
              hf1 ▸ hf, fun c hc => List.mem_takeWhile_imp (hf1 ▸ hc)⟩
            rw [(stripLit_some_iff tilesLit l r1).mp hs, e1, e2, e3, ← hf1,
              List.takeWhile_append_dropWhile]

/-- Any input of the regex tail's shape makes `tailParse` succeed,
whatever the trailing content. -/
theorem tailParse_isSome_of_shape (z x y fmt trail : List Char)
    (hz : z ≠ []) (hzd : ∀ c ∈ z, c.isDigit = true)
    (hx : x ≠ []) (hxd : ∀ c ∈ x, c.isDigit = true)
    (hy : y ≠ []) (hyd : ∀ c ∈ y, c.isDigit = true)
    (hf : fmt ≠ []) (hfd : ∀ c ∈ fmt, c.isAlpha = true) :
    (tailParse (tilesLit ++ (z ++ '/' :: (x ++ '/' :: (y ++ '.' :: (fmt ++ trail)))))).isSome =
      true := by
  have hs : stripLit tilesLit
      (tilesLit ++ (z ++ '/' :: (x ++ '/' :: (y ++ '.' :: (fmt ++ trail))))) =
      some (z ++ '/' :: (x ++ '/' :: (y ++ '.' :: (fmt ++ trail)))) :=
    (stripLit_some_iff _ _ _).mpr rfl
  have hm1 : munch Char.isDigit '/' (z ++ '/' :: (x ++ '/' :: (y ++ '.' :: (fmt ++ trail)))) =
      some (z, x ++ '/' :: (y ++ '.' :: (fmt ++ trail))) :=
    (munch_eq_some_iff _ _ _ _ _ (by decide)).mpr ⟨rfl, hz, hzd⟩
  have hm2 : munch Char.isDigit '/' (x ++ '/' :: (y ++ '.' :: (fmt ++ trail))) =
      some (x, y ++ '.' :: (fmt ++ trail)) :=
    (munch_eq_some_iff _ _ _ _ _ (by decide)).mpr ⟨rfl, hx, hxd⟩
  have hm3 : munch Char.isDigit '.' (y ++ '.' :: (fmt ++ trail)) =
      some (y, fmt ++ trail) :=
    (munch_eq_some_iff _ _ _ _ _ (by decide)).mpr ⟨rfl, hy, hyd⟩
  unfold tailParse
  simp only [hs, hm1, hm2, hm3]
  cases fmt with
  | nil => exact absurd rfl hf
  | cons c cs =>
    have hc : c.isAlpha = true := hfd c (List.mem_cons_self c cs)
    simp [List.takeWhile_cons_of_pos hc]

/-- A split chosen by `findLastValid` belongs to the candidate list. -/
theorem findLastValid_mem (l : List (List Char × List Char))
    (pr : List Char × List Char) (h : findLastValid l = some pr) : pr ∈ l := by
  induction l with
  | nil => exact Option.noConfusion h
  | cons q rest ih =>
    unfold findLastValid at h
    cases hr : findLastValid rest with
    | some r =>
      rw [hr] at h
      simp only [Option.some.injEq] at h
      exact List.mem_cons_of_mem q (ih (h ▸ hr))
    | none =>
      rw [hr] at h
      by_cases hq : tileSplitOk q = true
      · rw [if_pos hq] at h
        simp only [Option.some.injEq] at h
        rw [← h]
        exact List.mem_cons_self q rest
      · rw [if_neg hq] at h
        exact Option.noConfusion h

/-- A split chosen by `findLastValid` is admissible. -/
theorem findLastValid_ok (l : List (List Char × List Char))
    (pr : List Char × List Char) (h : findLastValid l = some pr) :
    tileSplitOk pr = true := by
  induction l with
  | nil => exact Option.noConfusion h
  | cons q rest ih =>
    unfold findLastValid at h
    cases hr : findLastValid rest with
    | some r =>
      rw [hr] at h
      simp only [Option.some.injEq] at h
      exact ih (h ▸ hr)
    | none =>
      rw [hr] at h
      by_cases hq : tileSplitOk q = true
      · rw [if_pos hq] at h
        simp only [Option.some.injEq] at h
        exact h ▸ hq
      · rw [if_neg hq] at h
        exact Option.noConfusion h

/-- If some admissible split exists, `findLastValid` finds one. -/
theorem findLastValid_isSome (l : List (List Char × List Char))
    (h : ∃ pr ∈ l, tileSplitOk pr = true) : (findLastValid l).isSome = true := by
  induction l with
  | nil => simp at h
  | cons q rest ih =>
    obtain ⟨pr, hmem, hok⟩ := h
    unfold findLastValid
    cases hr : findLastValid rest with
    | some r => rfl
    | none =>
      rcases List.mem_cons.mp hmem with hq | hrest
      · subst hq
        rw [if_pos hok]
        rfl
      · have := ih ⟨pr, hrest, hok⟩
        rw [hr] at this
        exact absurd this (by simp)

/-- `noNL` is the pointwise no-newline condition. -/
theorem noNL_iff (l : List Char) : noNL l = true ↔ ∀ c ∈ l, ¬ c = '\n' := by
  simp [noNL, List.all_eq_true]

/-- C8 counterexample: the path `/services//tiles/0/0/0.png` has an EMPTY
tileset id, so it does not match the spec's grammar (whose `<tileset_id>`
is a non-empty path segment sequence, here checked by `specTileGrammar`),
yet `TILE_URL_RE` matches it — `.*` accepts the empty string — so the code
routes it as a tile request, refuting the claimed "if and only if". -/
theorem tile_route_empty_id_matches :
    (tileUrlCaptures "/services//tiles/0/0/0.png").isSome = true ∧
    specTileGrammar "/services//tiles/0/0/0.png" = false :=
  ⟨rfl, rfl⟩

/-- C8 amended: a request path is routed as a tile request if and only if
it decomposes as `/services/` ++ tid ++ `/tiles/` ++ z ++ `/` ++ x ++ `/`
++ y ++ `.` ++ fmt ++ trail, with tid a possibly-EMPTY newline-free
sequence, z, x, y nonempty decimal digit sequences, fmt a nonempty
alphabetic token, and trail ARBITRARY trailing content (the regex is not
end-anchored, so content after the format extension does not prevent a
match, and the empty tileset id is accepted). -/
theorem tile_route_iff_regex (path : String) :
    (tileUrlCaptures path).isSome = true ↔
      ∃ tid z x y fmt trail : List Char,
        path.toList =
          servicesLit ++ (tid ++ (tilesLit ++
            (z ++ '/' :: (x ++ '/' :: (y ++ '.' :: (fmt ++ trail)))))) ∧
        (∀ c ∈ tid, ¬ c = '\n') ∧
        z ≠ [] ∧ (∀ c ∈ z, c.isDigit = true) ∧
        x ≠ [] ∧ (∀ c ∈ x, c.isDigit = true) ∧
        y ≠ [] ∧ (∀ c ∈ y, c.isDigit = true) ∧
        fmt ≠ [] ∧ (∀ c ∈ fmt, c.isAlpha = true) := by
  constructor
  · intro h
    unfold tileUrlCaptures at h
    cases hs : stripLit servicesLit path.toList with
    | none => rw [hs] at h; exact absurd h (by simp)
    | some rest =>
      simp only [hs] at h
      cases hfind : findLastValid (splits rest) with
      | none => rw [hfind] at h; exact absurd h (by simp)
      | some pr =>
        simp only [hfind] at h
        have hok := findLastValid_ok (splits rest) pr hfind
        have hmem := findLastValid_mem (splits rest) pr hfind
        have hrest : pr.1 ++ pr.2 = rest := splits_sound rest pr hmem
        unfold tileSplitOk at hok
        rw [Bool.and_eq_true] at hok
        obtain ⟨hnl, hts⟩ := hok
        cases ht : tailParse pr.2 with
        | none => rw [ht] at hts; exact absurd hts (by simp)
        | some q =>
          obtain ⟨z, x, y, fmt⟩ := q
          obtain ⟨trail, hshape, hzne, hzd, hxne, hxd, hyne, hyd, hfne, hfd⟩ :=
            tailParse_shape pr.2 z x y fmt ht
          refine ⟨pr.1, z, x, y, fmt, trail, ?_, (noNL_iff pr.1).mp hnl,
            hzne, hzd, hxne, hxd, hyne, hyd, hfne, hfd⟩
          rw [(stripLit_some_iff servicesLit path.toList rest).mp hs, ← hrest, hshape]
  · rintro ⟨tid, z, x, y, fmt, trail, hpath, htid, hzne, hzd, hxne, hxd, hyne, hyd,
      hfne, hfd⟩
    have hs : stripLit servicesLit path.toList =
        some (tid ++ (tilesLit ++ (z ++ '/' :: (x ++ '/' :: (y ++ '.' :: (fmt ++ trail)))))) :=
      (stripLit_some_iff _ _ _).mpr hpath
    have hmem : (tid, tilesLit ++ (z ++ '/' :: (x ++ '/' :: (y ++ '.' :: (fmt ++ trail))))) ∈
        splits (tid ++ (tilesLit ++ (z ++ '/' :: (x ++ '/' :: (y ++ '.' :: (fmt ++ trail)))))) :=
      splits_complete _ _ _ rfl
    have hok : tileSplitOk
        (tid, tilesLit ++ (z ++ '/' :: (x ++ '/' :: (y ++ '.' :: (fmt ++ trail))))) = true := by
      unfold tileSplitOk
      rw [Bool.and_eq_true]
      exact ⟨(noNL_iff tid).mpr htid,
        tailParse_isSome_of_shape z x y fmt trail hzne hzd hxne hxd hyne hyd hfne hfd⟩
    have hfs : (findLastValid (splits
        (tid ++ (tilesLit ++ (z ++ '/' :: (x ++ '/' :: (y ++ '.' :: (fmt ++ trail)))))))).isSome =
        true :=
      findLastValid_isSome _ ⟨_, hmem, hok⟩
    unfold tileUrlCaptures
    simp only [hs]
    cases hfind : findLastValid (splits
        (tid ++ (tilesLit ++ (z ++ '/' :: (x ++ '/' :: (y ++ '.' :: (fmt ++ trail))))))) with
    | none => rw [hfind] at hfs; exact absurd hfs (by simp)
    | some pr =>
      have hok2 := findLastValid_ok _ pr hfind
      unfold tileSplitOk at hok2
      rw [Bool.and_eq_true] at hok2
      have hts := hok2.2
      cases ht : tailParse pr.2 with
      | none => rw [ht] at hts; exact absurd hts (by simp)
      | some q =>
        obtain ⟨a, b, c, d⟩ := q
        simp [ht]

/-- Witness for the amended C8: the backward direction applied at the
concrete decomposition of `/services/a/tiles/1/2/3.png`. -/
theorem tile_route_iff_regex_witness :
    (tileUrlCaptures "/services/a/tiles/1/2/3.png").isSome = true :=
  (tile_route_iff_regex "/services/a/tiles/1/2/3.png").mpr
    ⟨['a'], ['1'], ['2'], ['3'], ['p', 'n', 'g'], [], by decide, by decide, by decide,
     by decide, by decide, by decide, by decide, by decide, by decide, by decide⟩

/-- Witness for C6 at the concrete description request `/services/xyz`
against an empty registry. -/
theorem unknown_tileset_description_bad_request_witness :
    get_service none (some "localhost") "/services/xyz" none [] store0 =
      some (bad_request "Tileset does not exist: xyz") :=
  (unknown_tileset_description_bad_request none "localhost" "/services/xyz" none [] store0
    rfl rfl (by decide) (by decide) rfl).1
